import Mathlib

/-!
Shallow embedding of the contact-intake pipeline of the
professional-portfolio-website repository, and of the frontend contact
client, with theorems settling the specification claims.

Sources embedded:
- `src/backend_contact/src/server.js` (POST /contact handler),
- `src/backend_contact/src/rateLimit.js` (rate-limiter middleware),
- `validators.js` (contactSchema / sanitizeInput, shipped alongside the
  backend README),
- the frontend `sendContactMessage` client.

Strings are modelled as `List Char` so that the character-level
transformations of the sanitizer (regex replaces, trim) are explicit.
-/

namespace Portfolio

/-- Field values as character lists. -/
abbrev Str := List Char

/-- Whitespace, as recognised by JavaScript's `String.prototype.trim`
(space, tab, LF, CR, VT, FF cover every character the pipeline can meet). -/
def jsWS (c : Char) : Bool :=
  c = ' ' || c = '\t' || c = '\n' || c = '\r' || c = '\x0b' || c = '\x0c'

/-- JS `s.trim()`: drop leading and trailing whitespace. -/
def jsTrim (s : Str) : Str :=
  ((s.dropWhile jsWS).reverse.dropWhile jsWS).reverse

/-- JS `s.replace(/[\r\n]/g, ' ')`: every CR or LF becomes a space. -/
def replCRLF (s : Str) : Str :=
  s.map (fun c => if c = '\r' || c = '\n' then ' ' else c)

/-- JS `s.replace(/\r/g, '')`: every CR is deleted. -/
def dropCR (s : Str) : Str :=
  s.filter (fun c => c ≠ '\r')

/-- JS `String(v ?? '')` on an optional string-valued field. -/
def strOf (v : Option Str) : Str := v.getD []

/-- Embeds `trimSafe` from validators.js:
`String(v ?? '').replace(/[\r\n]/g, ' ').trim()`. -/
def trimSafe (v : Option Str) : Str :=
  jsTrim (replCRLF (strOf v))

/-- A request body for POST /contact: the three schema fields plus the
value of the configured honeypot field, each possibly absent. -/
structure Body where
  name : Option Str
  email : Option Str
  message : Option Str
  honeypot : Option Str
deriving DecidableEq, Repr

/-- The sanitized object produced by `sanitizeInput`. -/
structure Clean where
  name : Str
  email : Str
  message : Str
deriving DecidableEq, Repr

/-- Embeds `sanitizeInput` from validators.js: name and email via `trimSafe`,
message via `String(obj.message ?? '').replace(/\r/g, '').trim()`;
only these three fields are kept. -/
def sanitizeInput (obj : Body) : Clean :=
  { name := trimSafe obj.name
    email := trimSafe obj.email
    message := jsTrim (dropCR (strOf obj.message)) }

/-- View a sanitized object as a plain object again (every field present),
for re-feeding it to `sanitizeInput`. -/
def Clean.toBody (c : Clean) : Body :=
  { name := some c.name, email := some c.email
    message := some c.message, honeypot := none }

/-- Split a character list on a separator character (JS `s.split(sep)`). -/
def splitOnChar (sep : Char) : Str → List Str
  | [] => [[]]
  | c :: rest =>
    let r := splitOnChar sep rest
    if c = sep then [] :: r
    else
      match r with
      | [] => [[c]]
      | h :: t => (c :: h) :: t

/-- A non-empty, whitespace-free piece of an address. -/
def emailLabelOk (l : Str) : Bool :=
  decide (l ≠ []) && l.all (fun c => !jsWS c)

/-- Modelled from the spec: the "standard address grammar" enforced by the
validator's email rule (`Joi.string().email({ tlds: { allow: false } })`;
the Joi library is outside this repository). Exactly one `@`, a non-empty
whitespace-free local part, and a domain of at least two non-empty
whitespace-free dot-separated labels (no TLD allow-list check). -/
def emailOk (s : Str) : Bool :=
  match splitOnChar '@' s with
  | [loc, dom] =>
    emailLabelOk loc &&
      (let labs := splitOnChar '.' dom
       decide (labs.length ≥ 2) && labs.all emailLabelOk)
  | _ => false

/-- Paths of the three schema fields. -/
inductive FieldPath
  | name
  | email
  | message
deriving DecidableEq, Repr

/-- Kinds of Joi violation the schema can report on a field. -/
inductive ErrKind
  | required
  | emptyStr
  | tooLong
  | badEmail
deriving DecidableEq, Repr

/-- One entry of the `details` array of a validation-error response (Joi
detail `{ message, path }`, abstracting the message into its kind). -/
structure JoiErr where
  path : FieldPath
  kind : ErrKind
deriving DecidableEq, Repr

/-- Joi check for `Joi.string().min(1).max(mx).required()` on a possibly
absent field: absent → required; empty string → string.empty (Joi refuses
`''` by default, which subsumes `min(1)`); longer than `mx` → string.max. -/
def checkLenField (p : FieldPath) (mx : Nat) (v : Option Str) : Option JoiErr :=
  match v with
  | none => some ⟨p, .required⟩
  | some s =>
    if s = [] then some ⟨p, .emptyStr⟩
    else if s.length > mx then some ⟨p, .tooLong⟩
    else none

/-- Joi check for `Joi.string().email(...).required()`. -/
def checkEmail (v : Option Str) : Option JoiErr :=
  match v with
  | none => some ⟨.email, .required⟩
  | some s =>
    if s = [] then some ⟨.email, .emptyStr⟩
    else if emailOk s then none
    else some ⟨.email, .badEmail⟩

/-- All field-level violations of `contactSchema`, collected in one pass
(`abortEarly: false`): at most one detail per field, in field order. -/
def fieldErrors (b : Body) : List JoiErr :=
  (checkLenField .name 120 b.name).toList ++
    (checkEmail b.email).toList ++
    (checkLenField .message 5000 b.message).toList

/-- Embeds `contactSchema.validate(body, { abortEarly: false, stripUnknown: true })`:
either the validated value (the three raw field values, unknown fields
stripped) or the list of every field violation. Total — never throws. -/
def joiValidate (b : Body) : Except (List JoiErr) Clean :=
  match fieldErrors b with
  | [] => .ok ⟨strOf b.name, strOf b.email, strOf b.message⟩
  | errs => .error errs

/-- The HTTP responses the POST /contact path can produce. -/
inductive Resp
  | accepted (id : Option Str)
  | validationError (details : List JoiErr)
  | rateLimited
  | sendFailed
deriving DecidableEq, Repr

/-- HTTP status code of each response. -/
def Resp.status : Resp → Nat
  | .accepted _ => 202
  | .validationError _ => 400
  | .rateLimited => 429
  | .sendFailed => 500

/-- JS truthiness of an optional string field: present and non-empty. -/
def truthy (v : Option Str) : Bool :=
  match v with
  | some s => decide (s ≠ [])
  | none => false

/-- What a successful sink call resolves to, as read by the handler
(`sendResult?.messageId`, `sendResult?.id`). -/
structure SendResult where
  messageId : Option Str
  resultId : Option Str
deriving DecidableEq, Repr

/-- A sink call either resolves to a result or rejects with an error text. -/
abbrev SinkOutcome := Except Str SendResult

/-- Modelled from the spec: the notification sink (`email.js` is not among
the sources) in simulate mode — no provider configured — resolves
successfully without sending and carries no message identifier. -/
def simulateSink : SinkOutcome := .ok ⟨none, none⟩

/-- Embeds `sendResult?.messageId || sendResult?.id || null` (JS `||` chain over
truthiness). -/
def resultIdOf (r : SendResult) : Option Str :=
  if truthy r.messageId then r.messageId
  else if truthy r.resultId then r.resultId
  else none

/-- Honeypot check of server.js:
`typeof req.body?.[hp] !== 'undefined' && String(req.body[hp]).trim() !== ''`. -/
def honeypotTriggered (b : Body) : Bool :=
  match b.honeypot with
  | none => false
  | some v => decide (jsTrim v ≠ [])

/-- What one run of the POST /contact handler body did: the response sent,
how many times the sink was invoked, and the payload passed to it. -/
structure HandlerOutcome where
  resp : Resp
  sinkCalls : Nat
  sinkPayload : Option Clean
deriving DecidableEq, Repr

/-- The POST /contact handler body (server.js lines 100–129): honeypot
check on the raw body, then schema validation of the raw body, then
`sanitizeInput(value)` on the validated value, then one sink call whose
resolution yields 202 and whose rejection yields 500. -/
def handleContact (b : Body) (sink : SinkOutcome) : HandlerOutcome :=
  if honeypotTriggered b then ⟨.accepted none, 0, none⟩
  else
    match joiValidate b with
    | .error errs => ⟨.validationError errs, 0, none⟩
    | .ok v =>
      let payload := sanitizeInput v.toBody
      match sink with
      | .ok r => ⟨.accepted (resultIdOf r), 1, some payload⟩
      | .error _ => ⟨.sendFailed, 1, some payload⟩

/-- Default `RATE_LIMIT_POINTS` (rateLimit.js line 6). -/
def rlPoints : Nat := 5

/-- Default `RATE_LIMIT_DURATION`, in seconds (rateLimit.js line 7). -/
def rlDuration : Nat := 60

/-- One per-key record of the in-memory limiter: consumed points and the
instant the key's current window started. -/
structure RLEntry where
  count : Nat
  windowStart : Nat
deriving DecidableEq, Repr

/-- The limiter's whole in-memory state: one record per known key. -/
abbrev RLState := List (Str × RLEntry)

/-- Replace (or insert) the record of a key. -/
def rlSet (st : RLState) (key : Str) (e : RLEntry) : RLState :=
  (key, e) :: st.filter (fun kv => kv.1 ≠ key)

/-- Modelled from the spec: `limiter.consume(key)` of the in-memory
fixed-window limiter (the rate-limiter-flexible library is outside this
repository). The window starts lazily on a key's first call; the counter
increments on every call and resets when the window has elapsed; the call
is allowed while the incremented counter stays within the capacity. -/
def consume (points duration : Nat) (st : RLState) (key : Str) (now : Nat) :
    Bool × RLState :=
  match st.lookup key with
  | none => (decide (1 ≤ points), rlSet st key ⟨1, now⟩)
  | some e =>
    if e.windowStart + duration ≤ now then
      (decide (1 ≤ points), rlSet st key ⟨1, now⟩)
    else
      (decide (e.count + 1 ≤ points), rlSet st key ⟨e.count + 1, e.windowStart⟩)

/-- Embeds `rateLimiterMiddleware` composed with the contact handler
(server.js line 100): a consumed call runs the handler, a rejected
consume answers 429 `{ error: "rate_limited" }` without reaching it. -/
def postContact (st : RLState) (key : Str) (now : Nat) (b : Body)
    (sink : SinkOutcome) : HandlerOutcome × RLState :=
  let r := consume rlPoints rlDuration st key now
  if r.1 then (handleContact b sink, r.2)
  else (⟨.rateLimited, 0, none⟩, r.2)

/-- A sequence of middleware calls for one key at the given instants:
the allow/deny verdicts in order, and the limiter state left behind. -/
def runCalls (st : RLState) (key : Str) : List Nat → List Bool × RLState
  | [] => ([], st)
  | t :: ts =>
    let r := consume rlPoints rlDuration st key t
    let rest := runCalls r.2 key ts
    (r.1 :: rest.1, rest.2)

/-- The last comma-separated entry of X-Forwarded-For, trimmed: with
`trust proxy` set to 1 hop, Express's `req.ip` is the address the trusted
proxy appended, i.e. this entry. -/
def lastForwarded (xff : Option Str) : Option Str :=
  match xff with
  | none => none
  | some s => (splitOnChar ',' s).getLast?.map jsTrim

/-- Express `req.ip`: honours the forwarded header when `trust proxy` is
enabled, otherwise the socket's remote address. -/
def computeReqIp (trustProxy : Bool) (xff remote : Option Str) : Option Str :=
  if trustProxy then
    match lastForwarded xff with
    | some a => if a = [] then remote else some a
    | none => remote
  else remote

/-- rateLimit.js line 16:
`req.ip || req.headers['x-forwarded-for'] || req.connection?.remoteAddress || 'global'`
(a JS `||` chain over truthiness). -/
def deriveKey (reqIp xff remote : Option Str) : Str :=
  if truthy reqIp then strOf reqIp
  else if truthy xff then strOf xff
  else if truthy remote then strOf remote
  else "global".toList

/-- The client key the middleware ends up rate-limiting on, as a function
of the trust-proxy setting, the forwarded header and the socket address. -/
def rlKey (trustProxy : Bool) (xff remote : Option Str) : Str :=
  deriveKey (computeReqIp trustProxy xff remote) xff remote

/-- server.js line 30:
`String(process.env.TRUST_PROXY || process.env.REACT_APP_TRUST_PROXY || '1') === '1'`. -/
def trustProxyCfg (envTrust envReactTrust : Option Str) : Bool :=
  (if truthy envTrust then strOf envTrust
   else if truthy envReactTrust then strOf envReactTrust
   else "1".toList) == "1".toList

/-- What the frontend client's `data` can end up holding: a parsed JSON
object (only the three message-bearing fields matter to the client) or a
plain text body. -/
inductive JsData
  | jsonObj (errField detailField msgField : Option Str)
  | text (s : Str)
deriving DecidableEq, Repr

/-- A resolved `fetch` response as the client reads it: `resp.ok`,
`resp.status`, whether the content-type includes `application/json`, the
parsed JSON body (`none` = parse failure, read as `null`), and the text
body (`none` = `text()` failure, read as `""`). -/
structure FetchResp where
  respOk : Bool
  status : Nat
  ctJson : Bool
  jsonData : Option JsData
  textData : Option Str
deriving DecidableEq, Repr

/-- A `fetch` call either rejects (network error, with a possibly absent
`err.message`) or resolves to a response. -/
inductive FetchOutcome
  | rejected (errMsg : Option Str)
  | resolved (r : FetchResp)
deriving DecidableEq, Repr

/-- The configuration-error message of the client. -/
def configErrMsg : Str :=
  "REACT_APP_CONTACT_API_URL is not set. Please configure it in your .env file.".toList

/-- Embeds `${base.replace(/\/+$/, '')}/api/contact/`. -/
def contactUrl (base : Str) : Str :=
  (base.reverse.dropWhile (fun c => c = '/')).reverse ++ "/api/contact/".toList

/-- Embeds `(data && (data.error || data.detail || data.message)) || fallback`
for a non-ok response. -/
def dataMsg (d : Option JsData) (status : Nat) : Str :=
  let fallback := ("Request failed with status " ++ toString status).toList
  match d with
  | some (.jsonObj e det m) =>
    if truthy e then strOf e
    else if truthy det then strOf det
    else if truthy m then strOf m
    else fallback
  | some (.text _) => fallback
  | none => fallback

/-- What `sendContactMessage` returned: `ok` plus the optional `error`
and `data` fields. -/
structure ClientResult where
  ok : Bool
  error : Option Str
  data : Option JsData
deriving DecidableEq, Repr

/-- The frontend `sendContactMessage`, as a function of the configured
base URL and the outcome `fetch` would have: returns its result and how
many network requests were performed. A falsy base URL short-circuits to
a configuration error with no request; a rejected fetch yields
`err?.message || "Network error"`; a resolved response yields `ok` per
`resp.ok`, with `data` from the JSON or text body. -/
def sendContactMessage (base : Option Str) (outcome : FetchOutcome) :
    ClientResult × Nat :=
  if !truthy base then
    (⟨false, some configErrMsg, none⟩, 0)
  else
    match outcome with
    | .rejected m =>
      (⟨false, some (if truthy m then strOf m else "Network error".toList), none⟩, 1)
    | .resolved r =>
      let data :=
        if r.ctJson then r.jsonData
        else
          match r.textData.getD [] with
          | [] => none
          | t => some (.text t)
      if r.respOk then (⟨true, none, data⟩, 1)
      else (⟨false, some (dataMsg data r.status), data⟩, 1)

/-- The schema check responsible for one field. -/
def fieldCheck (p : FieldPath) (b : Body) : Option JoiErr :=
  match p with
  | .name => checkLenField .name 120 b.name
  | .email => checkEmail b.email
  | .message => checkLenField .message 5000 b.message

/-- No carriage return and no line feed anywhere in the value. -/
def noCRLF (s : Str) : Bool :=
  s.all (fun c => c ≠ '\r' && c ≠ '\n')

/-- No carriage return anywhere in the value. -/
def noCR (s : Str) : Bool :=
  s.all (fun c => c ≠ '\r')

theorem jsTrim_eq_rdropWhile (s : Str) :
    jsTrim s = List.rdropWhile jsWS (List.dropWhile jsWS s) := rfl

theorem head?_dropWhile_false (p : Char → Bool) (l : Str) (c : Char)
    (h : (List.dropWhile p l).head? = some c) : p c = false := by
  induction l with
  | nil => simp [List.dropWhile] at h
  | cons a t ih =>
    rw [List.dropWhile_cons] at h
    by_cases hp : p a = true
    · rw [if_pos hp] at h
      exact ih h
    · rw [if_neg hp] at h
      simp only [List.head?_cons, Option.some.injEq] at h
      rw [← h]
      exact Bool.eq_false_iff.mpr hp

theorem jsTrim_sublist (s : Str) : List.Sublist (jsTrim s) s := by
  rw [jsTrim_eq_rdropWhile]
  exact ( List.rdropWhile_prefix jsWS _).sublist.trans
    (List.dropWhile_sublist jsWS)

theorem dropWhile_jsTrim (s : Str) :
    List.dropWhile jsWS (jsTrim s) = jsTrim s := by
  rw [jsTrim_eq_rdropWhile]
  obtain ⟨r, hr⟩ := List.rdropWhile_prefix jsWS (List.dropWhile jsWS s)
  cases ht : List.rdropWhile jsWS (List.dropWhile jsWS s) with
  | nil => simp
  | cons a t' =>
    rw [List.dropWhile_cons]
    have ha : jsWS a = false := by
      apply head?_dropWhile_false jsWS s
      rw [← hr, ht]
      simp
    simp [ha]

theorem jsTrim_idem (s : Str) : jsTrim (jsTrim s) = jsTrim s := by
  conv_lhs => rw [jsTrim_eq_rdropWhile (jsTrim s), dropWhile_jsTrim]
  rw [jsTrim_eq_rdropWhile]
  exact List.rdropWhile_idempotent jsWS _

theorem noCRLF_replCRLF (s : Str) : noCRLF (replCRLF s) = true := by
  simp only [noCRLF, replCRLF, List.all_eq_true, List.mem_map]
  rintro c ⟨a, _, rfl⟩
  by_cases h1 : a = '\r' <;> by_cases h2 : a = '\n' <;> simp [h1, h2]

theorem noCR_dropCR (s : Str) : noCR (dropCR s) = true := by
  simp only [noCR, dropCR, List.all_eq_true]
  intro c hc
  exact (List.mem_filter.mp hc).2

theorem noCRLF_sublist {s t : Str} (h : List.Sublist t s)
    (hs : noCRLF s = true) : noCRLF t = true := by
  simp only [noCRLF, List.all_eq_true] at hs ⊢
  exact fun c hc => hs c (h.subset hc)

theorem noCR_sublist {s t : Str} (h : List.Sublist t s)
    (hs : noCR s = true) : noCR t = true := by
  simp only [noCR, List.all_eq_true] at hs ⊢
  exact fun c hc => hs c (h.subset hc)

theorem replCRLF_of_noCRLF {s : Str} (hs : noCRLF s = true) :
    replCRLF s = s := by
  simp only [noCRLF, List.all_eq_true, Bool.and_eq_true, decide_eq_true_eq] at hs
  unfold replCRLF
  have : ∀ c ∈ s, (if c = '\r' || c = '\n' then ' ' else c) = id c := by
    intro c hc
    simp [(hs c hc).1, (hs c hc).2]
  rw [List.map_congr_left this, List.map_id]

theorem dropCR_of_noCR {s : Str} (hs : noCR s = true) : dropCR s = s := by
  simp only [noCR, List.all_eq_true] at hs
  unfold dropCR
  rw [List.filter_eq_self]
  exact hs

theorem trimSafe_trimSafe (v : Option Str) :
    trimSafe (some (trimSafe v)) = trimSafe v := by
  unfold trimSafe strOf
  simp only [Option.getD_some]
  rw [replCRLF_of_noCRLF
        (noCRLF_sublist (jsTrim_sublist _) (noCRLF_replCRLF _)),
    jsTrim_idem]

theorem trimDropCR_trimDropCR (m : Str) :
    jsTrim (dropCR (jsTrim (dropCR m))) = jsTrim (dropCR m) := by
  rw [dropCR_of_noCR (noCR_sublist (jsTrim_sublist _) (noCR_dropCR _)),
    jsTrim_idem]

example : jsTrim "  ab c  ".toList = "ab c".toList := by decide

example : emailOk "jane@example.com".toList = true := by decide

example : emailOk "not-an-email".toList = false := by decide

example :
    (fieldErrors
      { name := some [], email := some "not-an-email".toList
        message := some [], honeypot := none }).length = 3 := by decide

example : trimSafe (some "  a\r\nb ".toList) = "a  b".toList := by decide

example :
    (sanitizeInput
      { name := some "  Jane ".toList, email := none
        message := some "hi\r\nthere".toList, honeypot := none }) =
    { name := "Jane".toList, email := "".toList
      message := "hi\nthere".toList } := by decide

theorem emailOk_nil : emailOk ([] : Str) = false := by decide

theorem fieldErrors_nil_of_ok {n e m : Str} (b : Body)
    (hn : b.name = some n) (hn1 : n ≠ []) (hn2 : n.length ≤ 120)
    (he : b.email = some e) (heOk : emailOk e = true)
    (hm : b.message = some m) (hm1 : m ≠ []) (hm2 : m.length ≤ 5000) :
    fieldErrors b = [] := by
  have he1 : e ≠ [] := by
    intro h
    rw [h, emailOk_nil] at heOk
    cases heOk
  unfold fieldErrors
  rw [hn, he, hm]
  simp [checkLenField, checkEmail, hn1, hm1, he1, heOk,
    Nat.not_lt.mpr hn2, Nat.not_lt.mpr hm2]

theorem joiValidate_ok_of_nil {b : Body} (h : fieldErrors b = []) :
    joiValidate b = .ok ⟨strOf b.name, strOf b.email, strOf b.message⟩ := by
  simp [joiValidate, h]

theorem joiValidate_error_eq {b : Body} {errs : List JoiErr}
    (h : joiValidate b = .error errs) : errs = fieldErrors b := by
  unfold joiValidate at h
  split at h
  · cases h
  · cases h
    rfl

theorem honeypot_not_triggered {b : Body}
    (h : b.honeypot = none ∨ b.honeypot = some []) :
    honeypotTriggered b = false := by
  rcases h with h | h
  · simp [honeypotTriggered, h]
  · simp [honeypotTriggered, h]
    rfl

theorem checkLenField_path {p : FieldPath} {mx : Nat} {v : Option Str}
    {er : JoiErr} (h : checkLenField p mx v = some er) : er.path = p := by
  unfold checkLenField at h
  split at h
  · cases h
    rfl
  · split at h
    · cases h
      rfl
    · split at h
      · cases h
        rfl
      · cases h

theorem checkEmail_path {v : Option Str} {er : JoiErr}
    (h : checkEmail v = some er) : er.path = .email := by
  unfold checkEmail at h
  split at h
  · cases h
    rfl
  · split at h
    · cases h
      rfl
    · split at h
      · cases h
      · cases h
        rfl

theorem filter_toList_same {o : Option JoiErr} {p : FieldPath}
    (h : ∀ er, o = some er → er.path = p) :
    o.toList.filter (fun er => er.path == p) = o.toList := by
  cases ho : o with
  | none => rfl
  | some er => simp [h er ho]

theorem filter_toList_other {o : Option JoiErr} {p q : FieldPath}
    (hpq : q ≠ p) (h : ∀ er, o = some er → er.path = q) :
    o.toList.filter (fun er => er.path == p) = [] := by
  cases ho : o with
  | none => rfl
  | some er => simp [h er ho, hpq]

theorem filter_fieldErrors (b : Body) (p : FieldPath) :
    (fieldErrors b).filter (fun er => er.path == p) = (fieldCheck p b).toList := by
  unfold fieldErrors fieldCheck
  rcases p with _ | _ | _ <;>
    rw [List.filter_append, List.filter_append]
  · rw [filter_toList_same (fun er h => checkLenField_path h),
      filter_toList_other (by decide) (fun er h => checkEmail_path h),
      filter_toList_other (by decide) (fun er h => checkLenField_path h),
      List.append_nil, List.append_nil]
  · rw [filter_toList_other (by decide) (fun er h => checkLenField_path h),
      filter_toList_same (fun er h => checkEmail_path h),
      filter_toList_other (by decide) (fun er h => checkLenField_path h),
      List.append_nil, List.nil_append]
  · rw [filter_toList_other (by decide) (fun er h => checkLenField_path h),
      filter_toList_other (by decide) (fun er h => checkEmail_path h),
      filter_toList_same (fun er h => checkLenField_path h),
      List.nil_append, List.nil_append]

/-- C9: the function `sanitizeInput` is idempotent — sanitizing its own output (viewed
as a request body again) returns it unchanged. -/
theorem sanitizeInput_idempotent (x : Body) :
    sanitizeInput (sanitizeInput x).toBody = sanitizeInput x := by
  simp only [sanitizeInput, Clean.toBody, strOf, Option.getD_some]
  rw [trimSafe_trimSafe, trimSafe_trimSafe, trimDropCR_trimDropCR]

/-- C8 counterexample: the `message` field is not cleaned of line feeds —
`sanitizeInput` on a message `"a\nb"` returns it unchanged, line feed
included, refuting "each string field … contains no carriage-return or
line-feed characters". -/
theorem sanitize_message_keeps_lf :
    (sanitizeInput
        { name := none, email := none
          message := some "a\nb".toList, honeypot := none }).message
      = "a\nb".toList ∧
    '\n' ∈ (sanitizeInput
        { name := none, email := none
          message := some "a\nb".toList, honeypot := none }).message := by
  decide

/-- C8 amended: the function `sanitizeInput` returns a copy keeping only the three known
fields, in which `name` and `email` are trimmed and free of CR and LF (each
collapsed to a space), `message` is trimmed and free of CR (but interior LF
is preserved), and missing fields coerce to the empty string; the function
is total (never throws). -/
theorem sanitize_amended (x : Body) :
    noCRLF (sanitizeInput x).name = true ∧
    noCRLF (sanitizeInput x).email = true ∧
    noCR (sanitizeInput x).message = true ∧
    jsTrim (sanitizeInput x).name = (sanitizeInput x).name ∧
    jsTrim (sanitizeInput x).email = (sanitizeInput x).email ∧
    jsTrim (sanitizeInput x).message = (sanitizeInput x).message ∧
    (x.name = none → (sanitizeInput x).name = []) ∧
    (x.email = none → (sanitizeInput x).email = []) ∧
    (x.message = none → (sanitizeInput x).message = []) := by
  refine ⟨?_, ?_, ?_, ?_, ?_, ?_, ?_, ?_, ?_⟩
  · exact noCRLF_sublist (jsTrim_sublist _) (noCRLF_replCRLF _)
  · exact noCRLF_sublist (jsTrim_sublist _) (noCRLF_replCRLF _)
  · exact noCR_sublist (jsTrim_sublist _) (noCR_dropCR _)
  · exact jsTrim_idem _
  · exact jsTrim_idem _
  · exact jsTrim_idem _
  · intro h
    simp [sanitizeInput, h, trimSafe, strOf, replCRLF, jsTrim]
  · intro h
    simp [sanitizeInput, h, trimSafe, strOf, replCRLF, jsTrim]
  · intro h
    simp [sanitizeInput, h, dropCR, strOf, jsTrim]

/-- Witness for the amended C8 statement at a concrete input with an
absent name field and a CR-bearing email field. -/
theorem sanitize_amended_witness :
    noCRLF (sanitizeInput
        { name := none, email := some " a\rb ".toList
          message := none, honeypot := none }).email = true ∧
    (sanitizeInput
        { name := none, email := some " a\rb ".toList
          message := none, honeypot := none }).name = [] := by
  exact ⟨(sanitize_amended _).2.1, (sanitize_amended _).2.2.2.2.2.2.1 rfl⟩

/-- C4 counterexample: the handler validates the raw body, not the
sanitized one. A name of three spaces trims to the empty string — under
the claim the length-1 constraint would have to reject it with a
validation error — yet the request is accepted and sent. -/
theorem validation_on_raw_counterexample :
    jsTrim "   ".toList = [] ∧
    (sanitizeInput
        { name := some "   ".toList, email := some "jane@example.com".toList
          message := some "hi".toList, honeypot := none }).name = [] ∧
    (handleContact
        { name := some "   ".toList, email := some "jane@example.com".toList
          message := some "hi".toList, honeypot := none }
        simulateSink).resp = .accepted none := by
  decide

/-- C4 amended: schema validation is applied to the raw field values; the
Input Sanitizer runs only after validation, on the validated value, and
its output is what reaches the sink. -/
theorem validation_before_sanitization (b : Body) (sink : SinkOutcome)
    (v : Clean) (hhp : honeypotTriggered b = false)
    (hv : joiValidate b = .ok v) :
    v = ⟨strOf b.name, strOf b.email, strOf b.message⟩ ∧
    (handleContact b sink).sinkPayload = some (sanitizeInput v.toBody) := by
  constructor
  · unfold joiValidate at hv
    split at hv
    · cases hv
      rfl
    · cases hv
  · cases sink <;> simp [handleContact, hhp, hv]

/-- Witness for the amended C4 statement: a raw, untrimmed name passes
validation as-is and the sink receives its sanitized form. -/
theorem validation_before_sanitization_witness :
    (⟨" Jane ".toList, "jane@example.com".toList, "hi".toList⟩ : Clean)
        = ⟨strOf (some " Jane ".toList), strOf (some "jane@example.com".toList),
            strOf (some "hi".toList)⟩ ∧
    (handleContact
        { name := some " Jane ".toList, email := some "jane@example.com".toList
          message := some "hi".toList, honeypot := none }
        simulateSink).sinkPayload
      = some (sanitizeInput
          (Clean.toBody ⟨" Jane ".toList, "jane@example.com".toList,
            "hi".toList⟩)) := by
  exact validation_before_sanitization
    { name := some " Jane ".toList, email := some "jane@example.com".toList
      message := some "hi".toList, honeypot := none }
    simulateSink
    ⟨" Jane ".toList, "jane@example.com".toList, "hi".toList⟩
    (by decide) (by rfl)

/-- C1: a request whose name has length 1–120, whose email matches the
address grammar, and whose message has length 1–5000, with the honeypot
field empty or absent, causes exactly one sink invocation; and a request
that fails schema validation never causes one. -/
theorem valid_submission_reaches_sink_once :
    (∀ (b : Body) (sink : SinkOutcome) (n e m : Str),
        b.name = some n → 1 ≤ n.length → n.length ≤ 120 →
        b.email = some e → emailOk e = true →
        b.message = some m → 1 ≤ m.length → m.length ≤ 5000 →
        (b.honeypot = none ∨ b.honeypot = some []) →
        (handleContact b sink).sinkCalls = 1) ∧
    (∀ (b : Body) (sink : SinkOutcome) (errs : List JoiErr),
        joiValidate b = .error errs →
        (handleContact b sink).sinkCalls = 0) := by
  constructor
  · intro b sink n e m hn hn1 hn2 he heOk hm hm1 hm2 hhp
    have hnz : n ≠ [] := by
      intro h
      rw [h] at hn1
      simp at hn1
    have hmz : m ≠ [] := by
      intro h
      rw [h] at hm1
      simp at hm1
    have hfe : fieldErrors b = [] :=
      fieldErrors_nil_of_ok b hn hnz hn2 he heOk hm hmz hm2
    have htrig : honeypotTriggered b = false := honeypot_not_triggered hhp
    cases sink <;> simp [handleContact, htrig, joiValidate_ok_of_nil hfe]
  · intro b sink errs hv
    by_cases h : honeypotTriggered b
    · simp [handleContact, h]
    · simp [handleContact, h, hv]

/-- Witness for C1: the documented Jane example causes one sink call; the
documented invalid example causes none. -/
theorem valid_submission_reaches_sink_once_witness :
    (handleContact
        { name := some "Jane".toList, email := some "jane@example.com".toList
          message := some "Hello!".toList, honeypot := none }
        simulateSink).sinkCalls = 1 ∧
    (handleContact
        { name := some [], email := some "not-an-email".toList
          message := some [], honeypot := none }
        simulateSink).sinkCalls = 0 := by
  refine ⟨valid_submission_reaches_sink_once.1 _ simulateSink
      "Jane".toList "jane@example.com".toList "Hello!".toList rfl
      (by decide) (by decide) rfl (by decide) rfl (by decide) (by decide)
      (Or.inl rfl),
    valid_submission_reaches_sink_once.2 _ simulateSink
      [⟨.name, .emptyStr⟩, ⟨.email, .badEmail⟩, ⟨.message, .emptyStr⟩]
      (by rfl)⟩

/-- C2: a non-empty honeypot field means the sink is never invoked, yet
the response is a 202 `{ success: true, id: null }` — the same response a
genuine valid submission gets in simulate mode. -/
theorem honeypot_indistinguishable_from_success :
    ∀ (b : Body) (sink : SinkOutcome),
      honeypotTriggered b = true →
      (handleContact b sink).sinkCalls = 0 ∧
      (handleContact b sink).resp = .accepted none ∧
      ((handleContact b sink).resp).status = 202 ∧
      (∀ (b' : Body) (v : Clean),
          honeypotTriggered b' = false → joiValidate b' = .ok v →
          (handleContact b' simulateSink).resp = (handleContact b sink).resp) := by
  intro b sink h
  refine ⟨by simp [handleContact, h], by simp [handleContact, h],
    by simp [handleContact, h, Resp.status], ?_⟩
  intro b' v hb' hv
  simp [handleContact, h, hb', hv, simulateSink, resultIdOf, truthy]

/-- Witness for C2: a bot-filled honeypot body with a failing sink gets
the very response a genuine submission gets in simulate mode, with zero
sink calls. -/
theorem honeypot_indistinguishable_from_success_witness :
    (handleContact
        { name := some "Jane".toList, email := some "jane@example.com".toList
          message := some "Hi".toList, honeypot := some "http://spam".toList }
        (.error "boom".toList)).sinkCalls = 0 ∧
    (handleContact
        { name := some "Jane".toList, email := some "jane@example.com".toList
          message := some "Hi".toList, honeypot := some "http://spam".toList }
        (.error "boom".toList)).resp = .accepted none ∧
    (handleContact
        { name := some "Jane".toList, email := some "jane@example.com".toList
          message := some "Hi".toList, honeypot := none }
        simulateSink).resp
      = (handleContact
          { name := some "Jane".toList, email := some "jane@example.com".toList
            message := some "Hi".toList, honeypot := some "http://spam".toList }
          (.error "boom".toList)).resp := by
  obtain ⟨h1, h2, _, h4⟩ :=
    honeypot_indistinguishable_from_success
      { name := some "Jane".toList, email := some "jane@example.com".toList
        message := some "Hi".toList, honeypot := some "http://spam".toList }
      (.error "boom".toList) (by decide)
  exact ⟨h1, h2, h4 _
    ⟨"Jane".toList, "jane@example.com".toList, "Hi".toList⟩
    (by decide) (by rfl)⟩

/-- C5: validation collects all violations in one pass — the details list
carries exactly one entry per violated field (and none for a satisfied
field), a validation failure on the non-honeypot path yields the 400
`validation_error` response carrying those details, and the concrete
scenario `{name:"", email:"not-an-email", message:""}` yields exactly the
three details for name, email and message. (The embedding is a total
function, so the validator never throws.) -/
theorem validation_collects_all_violations :
    (∀ (b : Body) (errs : List JoiErr), joiValidate b = .error errs →
        ∀ p : FieldPath,
          (errs.filter (fun er => er.path == p)).length
            = if (fieldCheck p b).isSome then 1 else 0) ∧
    (∀ (b : Body) (sink : SinkOutcome) (errs : List JoiErr),
        honeypotTriggered b = false → joiValidate b = .error errs →
        (handleContact b sink).resp = .validationError errs ∧
        ((handleContact b sink).resp).status = 400) ∧
    joiValidate
        { name := some [], email := some "not-an-email".toList
          message := some [], honeypot := none }
      = .error [⟨.name, .emptyStr⟩, ⟨.email, .badEmail⟩,
          ⟨.message, .emptyStr⟩] := by
  refine ⟨?_, ?_, by rfl⟩
  · intro b errs hv p
    rw [joiValidate_error_eq hv, filter_fieldErrors]
    cases fieldCheck p b <;> simp
  · intro b sink errs hhp hv
    exact ⟨by simp [handleContact, hhp, hv], by simp [handleContact, hhp, hv, Resp.status]⟩

/-- Witness for C5 at the documented triple-invalid body. -/
theorem validation_collects_all_violations_witness :
    (([⟨.name, .emptyStr⟩, ⟨.email, .badEmail⟩,
        ⟨.message, .emptyStr⟩] : List JoiErr).filter
          (fun er => er.path == .email)).length
      = (if (fieldCheck .email
            { name := some [], email := some "not-an-email".toList
              message := some [], honeypot := none }).isSome then 1 else 0) ∧
    (handleContact
        { name := some [], email := some "not-an-email".toList
          message := some [], honeypot := none }
        simulateSink).resp
      = .validationError [⟨.name, .emptyStr⟩, ⟨.email, .badEmail⟩,
          ⟨.message, .emptyStr⟩] := by
  exact ⟨validation_collects_all_violations.1 _ _ (by rfl) .email,
    (validation_collects_all_violations.2.1 _ simulateSink _
      (by decide) (by rfl)).1⟩

/-- C6: the sink is invoked at most once per request; when it rejects, the
response is the constant 500 `{ error: "send_failed" }`, independent of
the provider's error text (no leak), with no retry. -/
theorem sink_failure_generic_response :
    (∀ (b : Body) (sink : SinkOutcome), (handleContact b sink).sinkCalls ≤ 1) ∧
    (∀ (b : Body) (v : Clean) (e : Str),
        honeypotTriggered b = false → joiValidate b = .ok v →
        (handleContact b (.error e)).resp = .sendFailed ∧
        ((handleContact b (.error e)).resp).status = 500 ∧
        (handleContact b (.error e)).sinkCalls = 1 ∧
        (∀ e' : Str, handleContact b (.error e') = handleContact b (.error e))) := by
  constructor
  · intro b sink
    by_cases h : honeypotTriggered b
    · simp [handleContact, h]
    · cases hv : joiValidate b with
      | error errs => simp [handleContact, h, hv]
      | ok v => cases sink <;> simp [handleContact, h, hv]
  · intro b v e hhp hv
    refine ⟨by simp [handleContact, hhp, hv], by simp [handleContact, hhp, hv, Resp.status],
      by simp [handleContact, hhp, hv], ?_⟩
    intro e'
    simp [handleContact, hhp, hv]

/-- Witness for C6 at the Jane body with a rejecting sink carrying
provider-specific text. -/
theorem sink_failure_generic_response_witness :
    (handleContact
        { name := some "Jane".toList, email := some "jane@example.com".toList
          message := some "Hi".toList, honeypot := none }
        (.error "smtp: 535 bad credentials".toList)).sinkCalls ≤ 1 ∧
    (handleContact
        { name := some "Jane".toList, email := some "jane@example.com".toList
          message := some "Hi".toList, honeypot := none }
        (.error "smtp: 535 bad credentials".toList)).resp = .sendFailed ∧
    handleContact
        { name := some "Jane".toList, email := some "jane@example.com".toList
          message := some "Hi".toList, honeypot := none }
        (.error "resend: quota exceeded".toList)
      = handleContact
          { name := some "Jane".toList, email := some "jane@example.com".toList
            message := some "Hi".toList, honeypot := none }
          (.error "smtp: 535 bad credentials".toList) := by
  obtain ⟨h1, _, _, h4⟩ :=
    sink_failure_generic_response.2
      { name := some "Jane".toList, email := some "jane@example.com".toList
        message := some "Hi".toList, honeypot := none }
      ⟨"Jane".toList, "jane@example.com".toList, "Hi".toList⟩
      "smtp: 535 bad credentials".toList (by decide) (by rfl)
  exact ⟨sink_failure_generic_response.1 _ _, h1, h4 _⟩

theorem splitOnChar_no_sep {sep : Char} {s : Str} (h : sep ∉ s) :
    splitOnChar sep s = [s] := by
  induction s with
  | nil => rfl
  | cons c t ih =>
    have hc : ¬ c = sep := fun hh => h (hh ▸ List.mem_cons_self c t)
    have ht : sep ∉ t := fun hh => h (List.mem_cons_of_mem _ hh)
    simp [splitOnChar, hc, ih ht]

/-- C7 counterexample: with trust-proxy disabled and no connection address
obtainable, the middleware keys on the raw proxy-supplied
`x-forwarded-for` header instead of the constant bucket; moreover
trusting the proxy is the default (`TRUST_PROXY` unset ⇒ trusted), not an
explicit opt-in. -/
theorem untrusted_header_key_counterexample :
    rlKey false (some "9.9.9.9".toList) none = "9.9.9.9".toList ∧
    rlKey false (some "9.9.9.9".toList) none ≠ "global".toList ∧
    trustProxyCfg none none = true := by
  decide

/-- C7 amended: the key is Express's `req.ip` whenever that is non-empty —
it reflects the forwarded header exactly when trust-proxy is enabled,
which is the default configuration rather than an explicit opt-in; when
`req.ip` is unobtainable the raw `x-forwarded-for` header is used
regardless of the trust setting; then the socket address; and the
constant `"global"` bucket only when none of them is available. -/
theorem rate_limit_key_amended :
    (∀ (a : Str) (remote : Option Str), jsTrim a ≠ [] → ',' ∉ a →
        rlKey true (some a) remote = jsTrim a) ∧
    (∀ (xff : Option Str) (r : Str), r ≠ [] →
        rlKey false xff (some r) = r) ∧
    (∀ a : Str, a ≠ [] → rlKey false (some a) none = a) ∧
    (∀ tp : Bool, rlKey tp none none = "global".toList) ∧
    trustProxyCfg none none = true ∧
    trustProxyCfg (some "0".toList) none = false := by
  refine ⟨?_, ?_, ?_, ?_, by decide, by decide⟩
  · intro a remote ha hsep
    simp [rlKey, computeReqIp, lastForwarded, splitOnChar_no_sep hsep,
      deriveKey, truthy, strOf, ha]
  · intro xff r hr
    simp [rlKey, computeReqIp, deriveKey, truthy, strOf, hr]
  · intro a ha
    simp [rlKey, computeReqIp, deriveKey, truthy, strOf, ha]
  · intro tp
    cases tp <;> simp [rlKey, computeReqIp, lastForwarded, deriveKey, truthy, strOf]

/-- Witness for the amended C7 statement at concrete addresses. -/
theorem rate_limit_key_amended_witness :
    rlKey true (some "1.2.3.4".toList) (some "10.0.0.1".toList)
        = jsTrim "1.2.3.4".toList ∧
    rlKey false (some "1.2.3.4".toList) (some "10.0.0.1".toList)
        = "10.0.0.1".toList ∧
    rlKey false (some "9.9.9.9".toList) none = "9.9.9.9".toList := by
  exact ⟨rate_limit_key_amended.1 "1.2.3.4".toList _ (by decide) (by decide),
    rate_limit_key_amended.2.1 _ "10.0.0.1".toList (by decide),
    rate_limit_key_amended.2.2.1 "9.9.9.9".toList (by decide)⟩

/-- C10: the client `sendContactMessage` never throws — for every configuration and
fetch outcome it returns a result with a boolean `ok`; with no base URL
configured it returns `ok: false` with the configuration-error message and
performs no network request; `ok` is true exactly when `fetch` resolved
with an ok status; and every failure result carries an error message. -/
theorem client_send_never_throws :
    (∀ f : FetchOutcome,
        sendContactMessage none f = (⟨false, some configErrMsg, none⟩, 0)) ∧
    (∀ (base : Option Str) (f : FetchOutcome), truthy base = false →
        sendContactMessage base f = (⟨false, some configErrMsg, none⟩, 0)) ∧
    (∀ (base : Option Str) (f : FetchOutcome),
        (sendContactMessage base f).1.ok = true ↔
          (truthy base = true ∧ ∃ r, f = .resolved r ∧ r.respOk = true)) ∧
    (∀ (base : Option Str) (f : FetchOutcome),
        (sendContactMessage base f).1.ok = false →
        ((sendContactMessage base f).1.error).isSome = true) := by
  refine ⟨?_, ?_, ?_, ?_⟩
  · intro f
    rfl
  · intro base f hb
    simp [sendContactMessage, hb]
  · intro base f
    by_cases hb : truthy base = true
    · cases f with
      | rejected m => simp [sendContactMessage, hb]
      | resolved r =>
        by_cases hr : r.respOk = true <;>
          simp [sendContactMessage, hb, hr]
    · rw [Bool.not_eq_true] at hb
      simp [sendContactMessage, hb]
  · intro base f
    by_cases hb : truthy base = true
    · cases f with
      | rejected m => simp [sendContactMessage, hb]
      | resolved r =>
        by_cases hr : r.respOk = true <;>
          simp [sendContactMessage, hb, hr]
    · rw [Bool.not_eq_true] at hb
      simp [sendContactMessage, hb]

/-- Witness for C10: unset configuration short-circuits with no request,
and a concrete failed fetch still yields a well-formed error result. -/
theorem client_send_never_throws_witness :
    sendContactMessage none (.rejected none)
        = (⟨false, some configErrMsg, none⟩, 0) ∧
    ((sendContactMessage (some "http://api".toList) (.rejected none)).1.ok
        = true ↔ (truthy (some "http://api".toList) = true ∧
          ∃ r, (FetchOutcome.rejected none) = .resolved r ∧ r.respOk = true)) ∧
    ((sendContactMessage (some "http://api".toList)
        (.rejected none)).1.error).isSome = true := by
  exact ⟨client_send_never_throws.1 (.rejected none),
    client_send_never_throws.2.2.1 (some "http://api".toList) (.rejected none),
    client_send_never_throws.2.2.2 (some "http://api".toList) (.rejected none)
      (by rfl)⟩

theorem lookup_rlSet (st : RLState) (key : Str) (e : RLEntry) :
    (rlSet st key e).lookup key = some e := by
  simp [rlSet, List.lookup]

theorem runCalls_in_window (key : Str) (t0 : Nat) :
    ∀ (rest : List Nat) (c : Nat) (st : RLState),
      st.lookup key = some ⟨c, t0⟩ →
      (∀ t ∈ rest, t < t0 + 60) →
      (runCalls st key rest).1
          = (List.range rest.length).map (fun i => decide (c + 1 + i ≤ 5)) ∧
      ((runCalls st key rest).2).lookup key = some ⟨c + rest.length, t0⟩ := by
  intro rest
  induction rest with
  | nil =>
    intro c st h _
    exact ⟨rfl, by simpa [runCalls] using h⟩
  | cons t ts ih =>
    intro c st h hin
    have hlt : t < t0 + 60 := hin t (List.mem_cons_self _ _)
    have hcons : consume rlPoints rlDuration st key t
        = (decide (c + 1 ≤ 5), rlSet st key ⟨c + 1, t0⟩) := by
      simp [consume, h, rlPoints, rlDuration, Nat.not_le.mpr hlt]
    obtain ⟨ih1, ih2⟩ := ih (c + 1) (rlSet st key ⟨c + 1, t0⟩)
      (lookup_rlSet st key ⟨c + 1, t0⟩)
      (fun t' ht' => hin t' (List.mem_cons_of_mem _ ht'))
    constructor
    · show (consume rlPoints rlDuration st key t).1
          :: (runCalls (consume rlPoints rlDuration st key t).2 key ts).1 = _
      rw [hcons]
      simp only
      rw [ih1, List.length_cons, List.range_succ_eq_map, List.map_cons,
        List.map_map]
      congr 1
      apply List.map_congr_left
      intro i _
      simp only [Function.comp_apply]
      rw [decide_eq_decide]
      omega
    · show ((runCalls (consume rlPoints rlDuration st key t).2 key ts).2).lookup key = _
      rw [hcons]
      simp only
      rw [ih2]
      have : c + 1 + ts.length = c + (t :: ts).length := by
        simp
        omega
      rw [this]

/-- C3: the limiter is fixed-window with the default capacity of 5 calls
per 60-second window: the window starts lazily on a key's first call, the
counter increments on every call, each of the first 5 calls of a window is
allowed and every further call of the same window denied, the first call
at or after the window's end is allowed again, and a denied call is
answered 429 `{ error: "rate_limited" }` without reaching the inner
handler (zero sink activity). -/
theorem rate_limiter_fixed_window :
    rlPoints = 5 ∧ rlDuration = 60 ∧
    (∀ (st : RLState) (key : Str) (t0 : Nat) (rest : List Nat) (tlate : Nat),
        st.lookup key = none →
        (∀ t ∈ rest, t < t0 + 60) →
        t0 + 60 ≤ tlate →
        (runCalls st key (t0 :: rest)).1
            = (List.range (rest.length + 1)).map (fun i => decide (i < 5)) ∧
        (runCalls (runCalls st key (t0 :: rest)).2 key [tlate]).1 = [true]) ∧
    (∀ (st : RLState) (key : Str) (now : Nat) (b : Body) (sink : SinkOutcome),
        (consume rlPoints rlDuration st key now).1 = false →
        postContact st key now b sink
          = (⟨.rateLimited, 0, none⟩, (consume rlPoints rlDuration st key now).2)) := by
  refine ⟨rfl, rfl, ?_, ?_⟩
  · intro st key t0 rest tlate h0 hin hlate
    have hfirst : consume rlPoints rlDuration st key t0
        = (true, rlSet st key ⟨1, t0⟩) := by
      simp [consume, h0, rlPoints]
    obtain ⟨h1, h2⟩ := runCalls_in_window key t0 rest 1 (rlSet st key ⟨1, t0⟩)
      (lookup_rlSet _ _ _) hin
    constructor
    · show (consume rlPoints rlDuration st key t0).1
          :: (runCalls (consume rlPoints rlDuration st key t0).2 key rest).1 = _
      rw [hfirst]
      simp only
      rw [h1, List.range_succ_eq_map, List.map_cons, List.map_map]
      congr 1
      apply List.map_congr_left
      intro i _
      simp only [Function.comp_apply]
      rw [decide_eq_decide]
      omega
    · have hst : ((runCalls st key (t0 :: rest)).2).lookup key
          = some ⟨1 + rest.length, t0⟩ := by
        show ((runCalls (consume rlPoints rlDuration st key t0).2 key rest).2).lookup key = _
        rw [hfirst]
        simpa using h2
      generalize hgen : (runCalls st key (t0 :: rest)).2 = s1 at hst
      simp [runCalls, consume, hst, rlPoints, rlDuration, hlate]
  · intro st key now b sink h
    simp [postContact, h]

/-- Witness for C3: from a fresh state, seven calls of one key inside one
minute are allowed five times then denied twice, the next call a minute
later is allowed again, and a denied call maps to the 429 response. -/
theorem rate_limiter_fixed_window_witness :
    (runCalls [] "1.2.3.4".toList [100, 101, 102, 103, 104, 105, 106]).1
        = [true, true, true, true, true, false, false] ∧
    (runCalls (runCalls [] "1.2.3.4".toList
        [100, 101, 102, 103, 104, 105, 106]).2 "1.2.3.4".toList [160]).1
        = [true] ∧
    postContact [("k".toList, ⟨5, 0⟩)] "k".toList 10
        { name := some "Jane".toList, email := some "jane@example.com".toList
          message := some "Hi".toList, honeypot := none }
        simulateSink
      = (⟨.rateLimited, 0, none⟩,
          (consume rlPoints rlDuration [("k".toList, ⟨5, 0⟩)] "k".toList 10).2) := by
  obtain ⟨w1, w2⟩ := rate_limiter_fixed_window.2.2.1 [] "1.2.3.4".toList 100
    [101, 102, 103, 104, 105, 106] 160 (by rfl) (by decide) (by decide)
  refine ⟨?_, w2, rate_limiter_fixed_window.2.2.2 _ _ 10 _ simulateSink (by rfl)⟩
  rw [w1]
  decide

end Portfolio
